import Mathlib

/-!
# Verification of the dapr sidecar invocation utility layer

Shallow embedding of `pkg/messaging/v1/util.go` (metadata bridging, trace
propagation, HTTP/gRPC status translation) and of the gRPC metrics recorder
(`pkg/diagnostics`), with theorems settling the specification's claims.

Go strings are modelled as Lean `String`s whose characters are the Go bytes
(all inputs of interest are byte strings); Go byte slices as `List Nat` with
every element `< 256`; Go maps iterated in a fixed order as association lists.
-/

set_option autoImplicit false

namespace DaprV1

/-! ## Base64 (standard encoding)

Modelled from the spec: values under binary-suffixed keys are "base64
standard-encoded on the wire" (Go `encoding/base64` `StdEncoding`, an external
library).  Encoding maps 3-byte groups to 4 alphabet characters with `=`
padding; decoding requires a well-formed padded string and rejects characters
outside the alphabet. -/

/-- Byte value of the standard-alphabet character for a 6-bit group. -/
def b64EncChar (n : Nat) : Nat :=
  if n < 26 then 65 + n
  else if n < 52 then 97 + (n - 26)
  else if n < 62 then 48 + (n - 52)
  else if n = 62 then 43
  else 47

/-- The 6-bit value of a standard-alphabet byte; `none` off the alphabet. -/
def b64DecChar (c : Nat) : Option Nat :=
  if 65 ≤ c ∧ c ≤ 90 then some (c - 65)
  else if 97 ≤ c ∧ c ≤ 122 then some (26 + (c - 97))
  else if 48 ≤ c ∧ c ≤ 57 then some (52 + (c - 48))
  else if c = 43 then some 62
  else if c = 47 then some 63
  else none

/-- The `=` padding byte. -/
def b64Pad : Nat := 61

/-- Standard base64 encoding of a byte list. -/
def b64Encode : List Nat → List Nat
  | [] => []
  | [b1] => [b64EncChar (b1 / 4), b64EncChar (b1 % 4 * 16), b64Pad, b64Pad]
  | [b1, b2] => [b64EncChar (b1 / 4), b64EncChar (b1 % 4 * 16 + b2 / 16),
                 b64EncChar (b2 % 16 * 4), b64Pad]
  | b1 :: b2 :: b3 :: rest =>
      b64EncChar (b1 / 4) :: b64EncChar (b1 % 4 * 16 + b2 / 16) ::
      b64EncChar (b2 % 16 * 4 + b3 / 64) :: b64EncChar (b3 % 64) ::
      b64Encode rest

/-- Decode the final 4-byte block, which may carry padding. -/
def b64DecodeLast (a b c d : Nat) : Option (List Nat) :=
  match b64DecChar a, b64DecChar b with
  | some va, some vb =>
      if c = b64Pad then
        if d = b64Pad then some [va * 4 + vb / 16] else none
      else
        match b64DecChar c with
        | some vc =>
            if d = b64Pad then some [va * 4 + vb / 16, vb % 16 * 16 + vc / 4]
            else
              match b64DecChar d with
              | some vd => some [va * 4 + vb / 16, vb % 16 * 16 + vc / 4,
                                 vc % 4 * 64 + vd]
              | none => none
        | none => none
  | _, _ => none

/-- Standard base64 decoding of a byte list; `none` on malformed input. -/
def b64Decode : List Nat → Option (List Nat)
  | [] => some []
  | a :: b :: c :: d :: rest =>
      if rest.isEmpty then b64DecodeLast a b c d
      else
        match b64DecChar a, b64DecChar b, b64DecChar c, b64DecChar d,
              b64Decode rest with
        | some va, some vb, some vc, some vd, some tail =>
            some ((va * 4 + vb / 16) :: (vb % 16 * 16 + vc / 4) ::
                  (vc % 4 * 64 + vd) :: tail)
        | _, _, _, _, _ => none
  | _ => none

theorem b64DecChar_encChar_all : ∀ n < 64, b64DecChar (b64EncChar n) = some n := by
  decide

theorem b64DecChar_encChar {n : Nat} (h : n < 64) :
    b64DecChar (b64EncChar n) = some n :=
  b64DecChar_encChar_all n h

theorem b64EncChar_ne_pad_all : ∀ n < 64, b64EncChar n ≠ b64Pad := by
  decide

theorem b64EncChar_ne_pad {n : Nat} (h : n < 64) : b64EncChar n ≠ b64Pad :=
  b64EncChar_ne_pad_all n h

theorem b64Encode_ne_nil {l : List Nat} (h : l ≠ []) : b64Encode l ≠ [] := by
  match l, h with
  | [b1], _ => simp [b64Encode]
  | [b1, b2], _ => simp [b64Encode]
  | b1 :: b2 :: b3 :: rest, _ => simp [b64Encode]

/-- Standard base64 decoding inverts encoding on byte lists. -/
theorem b64Decode_b64Encode (l : List Nat) (h : ∀ b ∈ l, b < 256) :
    b64Decode (b64Encode l) = some l := by
  match l with
  | [] => decide
  | [b1] =>
      have hb1 : b1 < 256 := h b1 (by simp)
      have e1 : b64DecChar (b64EncChar (b1 / 4)) = some (b1 / 4) :=
        b64DecChar_encChar (by omega)
      have e2 : b64DecChar (b64EncChar (b1 % 4 * 16)) = some (b1 % 4 * 16) :=
        b64DecChar_encChar (by omega)
      simp [b64Encode, b64Decode, b64DecodeLast, e1, e2]
      omega
  | [b1, b2] =>
      have hb1 : b1 < 256 := h b1 (by simp)
      have hb2 : b2 < 256 := h b2 (by simp)
      have e1 : b64DecChar (b64EncChar (b1 / 4)) = some (b1 / 4) :=
        b64DecChar_encChar (by omega)
      have e2 : b64DecChar (b64EncChar (b1 % 4 * 16 + b2 / 16)) =
          some (b1 % 4 * 16 + b2 / 16) := b64DecChar_encChar (by omega)
      have e3 : b64DecChar (b64EncChar (b2 % 16 * 4)) = some (b2 % 16 * 4) :=
        b64DecChar_encChar (by omega)
      have n3 : b64EncChar (b2 % 16 * 4) ≠ b64Pad := b64EncChar_ne_pad (by omega)
      simp [b64Encode, b64Decode, b64DecodeLast, e1, e2, e3, n3]
      omega
  | b1 :: b2 :: b3 :: rest =>
      have hb1 : b1 < 256 := h b1 (by simp)
      have hb2 : b2 < 256 := h b2 (by simp)
      have hb3 : b3 < 256 := h b3 (by simp)
      have ih := b64Decode_b64Encode rest (fun b hb => h b (by simp [hb]))
      have e1 : b64DecChar (b64EncChar (b1 / 4)) = some (b1 / 4) :=
        b64DecChar_encChar (by omega)
      have e2 : b64DecChar (b64EncChar (b1 % 4 * 16 + b2 / 16)) =
          some (b1 % 4 * 16 + b2 / 16) := b64DecChar_encChar (by omega)
      have e3 : b64DecChar (b64EncChar (b2 % 16 * 4 + b3 / 64)) =
          some (b2 % 16 * 4 + b3 / 64) := b64DecChar_encChar (by omega)
      have e4 : b64DecChar (b64EncChar (b3 % 64)) = some (b3 % 64) :=
        b64DecChar_encChar (by omega)
      match rest with
      | [] =>
          have n3 : b64EncChar (b2 % 16 * 4 + b3 / 64) ≠ b64Pad :=
            b64EncChar_ne_pad (by omega)
          have n4 : b64EncChar (b3 % 64) ≠ b64Pad :=
            b64EncChar_ne_pad (by omega)
          simp [b64Encode, b64Decode, b64DecodeLast, e1, e2, e3, e4, n3, n4]
          omega
      | r1 :: rest' =>
          have hne : b64Encode (r1 :: rest') ≠ [] := b64Encode_ne_nil (by simp)
          have hEmp : (b64Encode (r1 :: rest')).isEmpty = false := by
            cases hE : b64Encode (r1 :: rest') with
            | nil => exact absurd hE hne
            | cons x xs => rfl
          rw [show b64Encode (b1 :: b2 :: b3 :: r1 :: rest') =
                b64EncChar (b1 / 4) :: b64EncChar (b1 % 4 * 16 + b2 / 16) ::
                b64EncChar (b2 % 16 * 4 + b3 / 64) :: b64EncChar (b3 % 64) ::
                b64Encode (r1 :: rest') from rfl]
          simp only [b64Decode, hEmp, Bool.false_eq_true, if_false, e1, e2, e3,
            e4, ih]
          simp only [Option.some.injEq, List.cons.injEq]
          refine ⟨by omega, by omega, by omega, trivial⟩

/-! ## Go strings as byte strings -/

/-- The bytes of a Go string (characters are bytes in this embedding). -/
def strBytes (s : String) : List Nat := s.data.map Char.toNat

/-- A Go string built from bytes (`string(b)` on a byte slice). -/
def bytesStr (l : List Nat) : String := ⟨l.map Char.ofNat⟩

theorem toNat_ofNat_of_lt {n : Nat} (h : n < 256) : (Char.ofNat n).toNat = n := by
  have hv : n.isValidChar := Or.inl (by omega)
  simp [Char.ofNat, hv, Char.ofNatAux, Char.toNat]
  rfl

theorem strBytes_bytesStr (l : List Nat) (h : ∀ b ∈ l, b < 256) :
    strBytes (bytesStr l) = l := by
  induction l with
  | nil => rfl
  | cons b rest ih =>
      simp only [bytesStr, strBytes, List.map_cons] at *
      exact List.cons_eq_cons.mpr
        ⟨toNat_ofNat_of_lt (h b (by simp)), ih fun x hx => h x (by simp [hx])⟩

/-- Go `strings.ToLower` (ASCII range; every key this layer handles is ASCII). -/
def goToLower (s : String) : String := ⟨s.data.map Char.toLower⟩

/-- Go `strings.HasPrefix`. -/
def goStartsWith (s p : String) : Bool :=
  decide (s.data.take p.data.length = p.data)

/-- Go `strings.HasSuffix`. -/
def goEndsWith (s p : String) : Bool :=
  decide (s.data.drop (s.data.length - p.data.length) = p.data)

/-- The byte-slice truncation `s[:n]`. -/
def goTruncate (s : String) (n : Nat) : String := ⟨s.data.take n⟩

theorem bytesStr_strBytes (s : String) : bytesStr (strBytes s) = s := by
  cases s with
  | mk data =>
      simp only [strBytes, bytesStr, List.map_map]
      congr 1
      exact (List.map_congr_left fun c _ => by
        simp [Function.comp, Char.ofNat_toNat c]).trans (List.map_id data)

theorem b64EncChar_lt (n : Nat) : b64EncChar n < 256 := by
  unfold b64EncChar; split_ifs <;> omega

theorem b64Encode_bytes_lt : ∀ (l : List Nat), ∀ b ∈ b64Encode l, b < 256
  | [] => by simp [b64Encode]
  | [b1] => by
      simp only [b64Encode, List.mem_cons, List.mem_singleton]
      rintro b (rfl | rfl | rfl | rfl | h) <;>
        first
          | exact b64EncChar_lt _
          | simp [b64Pad]
          | simp_all
  | [b1, b2] => by
      simp only [b64Encode, List.mem_cons, List.mem_singleton]
      rintro b (rfl | rfl | rfl | rfl | h) <;>
        first
          | exact b64EncChar_lt _
          | simp [b64Pad]
          | simp_all
  | b1 :: b2 :: b3 :: rest => by
      simp only [b64Encode, List.mem_cons]
      rintro b (rfl | rfl | rfl | rfl | h)
      · exact b64EncChar_lt _
      · exact b64EncChar_lt _
      · exact b64EncChar_lt _
      · exact b64EncChar_lt _
      · exact b64Encode_bytes_lt rest b h

/-- Go `base64.StdEncoding.DecodeString` followed by `string(decoded)`. -/
def goBase64DecodeStr (s : String) : Option String :=
  (b64Decode (strBytes s)).map bytesStr

/-- Base64 standard encoding of a byte string, as a Go string. -/
def goBase64EncodeStr (bytes : List Nat) : String := bytesStr (b64Encode bytes)

theorem goBase64_roundtrip (bytes : List Nat) (h : ∀ b ∈ bytes, b < 256) :
    goBase64DecodeStr (goBase64EncodeStr bytes) = some (bytesStr bytes) := by
  simp [goBase64DecodeStr, goBase64EncodeStr,
    strBytes_bytesStr _ (b64Encode_bytes_lt bytes), b64Decode_b64Encode bytes h]

/-! ## Trace context

Modelled from the spec: the tracing SDK's span context carries trace-id
(16 bytes), span-id (8 bytes), sampling flags and trace-state; it serializes
to the W3C header pair `{2-hex-version}-{32-hex-traceid}-{16-hex-spanid}-
{2-hex-flags}` or to a single binary-encoded token, and both encodings
round-trip to the same trace-id/span-id when valid. -/

structure SpanContext where
  traceID : List Nat
  spanID : List Nat
  flags : Nat
  traceState : String
deriving DecidableEq

/-- Lowercase hex digit for a 4-bit value. -/
def hexDigitChar (n : Nat) : Char :=
  if n < 10 then Char.ofNat (48 + n) else Char.ofNat (87 + n)

def byteHexChars (b : Nat) : List Char := [hexDigitChar (b / 16), hexDigitChar (b % 16)]

/-- Lowercase hex rendering of a byte list. -/
def bytesHex (l : List Nat) : String := ⟨l.foldr (fun b acc => byteHexChars b ++ acc) []⟩

/-- Modelled from the spec: serialize a span context to a W3C `traceparent`. -/
def spanContextToW3CString (sc : SpanContext) : String :=
  "00-" ++ bytesHex sc.traceID ++ "-" ++ bytesHex sc.spanID ++ "-" ++ bytesHex [sc.flags]

def hexVal (c : Char) : Option Nat :=
  if 48 ≤ c.toNat ∧ c.toNat ≤ 57 then some (c.toNat - 48)
  else if 97 ≤ c.toNat ∧ c.toNat ≤ 102 then some (c.toNat - 87)
  else if 65 ≤ c.toNat ∧ c.toNat ≤ 70 then some (c.toNat - 55)
  else none

def parseHexBytes : List Char → Option (List Nat)
  | [] => some []
  | c1 :: c2 :: rest =>
      match hexVal c1, hexVal c2, parseHexBytes rest with
      | some h1, some h2, some tl => some ((h1 * 16 + h2) :: tl)
      | _, _, _ => none
  | _ => none

/-- Split a character list at a separator (`strings.Split` on one char). -/
def splitOnChar (sep : Char) : List Char → List (List Char)
  | [] => [[]]
  | c :: rest =>
      let r := splitOnChar sep rest
      if c = sep then [] :: r
      else (c :: r.headD []) :: r.tail

/-- Modelled from the spec: parse a W3C `traceparent` header
(`version-traceid-spanid-flags`, dash-separated, field widths 2/32/16/2 hex
characters); `none` on any grammar violation. -/
def spanContextFromW3CString (s : String) : Option SpanContext :=
  match splitOnChar '-' s.data with
  | [ver, tid, sid, fl] =>
      if ver.length = 2 ∧ tid.length = 32 ∧ sid.length = 16 ∧ fl.length = 2 then
        match parseHexBytes ver, parseHexBytes tid,
              parseHexBytes sid, parseHexBytes fl with
        | some _, some tidB, some sidB, some flB =>
            some ⟨tidB, sidB, flB.headD 0, ""⟩
        | _, _, _, _ => none
      else none
  | _ => none

/-- Modelled from the spec: read a W3C `tracestate` header value. -/
def traceStateFromW3CString (s : String) : String := s

/-- Modelled from the spec: the binary trace token carrying the same
information as the W3C headers (version byte, field-tagged trace-id, span-id
and flags). -/
def binaryFromSpanContext (sc : SpanContext) : List Nat :=
  0 :: 0 :: (sc.traceID ++ 1 :: (sc.spanID ++ [2, sc.flags]))

/-- Modelled from the spec: parse the binary trace token; `none` unless the
token has exactly the shape produced by `binaryFromSpanContext`. -/
def spanContextFromBinary (b : List Nat) : Option SpanContext :=
  if b.length = 29 ∧ b.take 2 = [0, 0] ∧ b.getD 18 0 = 1 ∧ b.getD 27 0 = 2 then
    some ⟨(b.drop 2).take 16, (b.drop 19).take 8, b.getD 28 0, ""⟩
  else none

/-! ## Metadata containers -/

/-- Type `DaprInternalMetadata`: the internal metadata map, iterated in list
order (Go map iteration order is fixed arbitrarily per call). -/
abbrev DaprInternalMetadata := List (String × List String)

def imdLookup (m : DaprInternalMetadata) (k : String) : Option (List String) :=
  match m.find? (fun p => p.1 == k) with
  | some p => some p.2
  | none => none

/-- gRPC `metadata.MD`, a Go map from keys to value lists, modelled as its
lookup function (absent key ↦ `[]`).  `Append`/`Set` lower-case their key;
every call site in this file already passes a lower-case key, so the
operations store the key as given. -/
abbrev MD := String → List String

def mdEmpty : MD := fun _ => []

def mdGet (md : MD) (k : String) : List String := md k

/-- Operation `metadata.MD.Append`: no-op on an empty value list, else appends. -/
def mdAppendKV (md : MD) (k : String) (vs : List String) : MD :=
  if vs.isEmpty then md
  else fun k' => if k' = k then md k ++ vs else md k'

/-- Operation `metadata.MD.Set`: no-op on an empty value list, else replaces. -/
def mdSetKV (md : MD) (k : String) (vs : List String) : MD :=
  if vs.isEmpty then md
  else fun k' => if k' = k then vs else md k'

/-! ## Constants from `pkg/messaging/v1/util.go` and `pkg/diagnostics/consts` -/

def GRPCContentType : String := "application/grpc"
def JSONContentType : String := "application/json"
def ContentTypeHeader : String := "content-type"
def DaprHeaderPfx : String := "dapr-"
def gRPCBinaryMetadataSfx : String := "-bin"
def DestinationIDHeader : String := "destination-app-id"
def TraceparentHeader : String := "traceparent"
def TracestateHeader : String := "tracestate"
def BaggageHeader : String := "baggage"
def GRPCTraceContextKey : String := "grpc-trace-bin"
def maxMetadataValueLen : Nat := 63
def errorInfoDomain : String := "dapr.io"
def errorInfoHTTPCodeMetadata : String := "http.code"
def errorInfoHTTPErrorMetadata : String := "http.error_message"

/-- Function `isPermanentHTTPHeader`: exact (case-sensitive) membership in the IANA
permanent request-header list enumerated in the source. -/
def isPermanentHTTPHeader (hdr : String) : Bool :=
  hdr ∈ ["Accept", "Accept-Charset", "Accept-Language", "Accept-Ranges",
    "Connection", "Keep-Alive", "Proxy-Connection", "Transfer-Encoding",
    "Upgrade", "Cache-Control", "Content-Type", "Content-Length", "Cookie",
    "Date", "Expect", "From", "Host", "If-Match", "If-Modified-Since",
    "If-None-Match", "If-Schedule-Tag-Match", "If-Unmodified-Since",
    "Max-Forwards", "Origin", "Pragma", "Referer", "Via", "Warning"]

/-- Function `IsJSONContentType`. -/
def IsJSONContentType (contentType : String) : Bool :=
  goStartsWith (goToLower contentType) JSONContentType

/-- Function `ReservedGRPCMetadataToDaprPrefixHeader` (pseudo-headers and `grpc-`-keyed
metadata get the `dapr-` namespace when surfaced as HTTP headers). -/
def ReservedGRPCMetadataToDaprPfxHeader (key : String) : String :=
  if key = ":method" ∨ key = ":scheme" ∨ key = ":path" ∨ key = ":authority" then
    DaprHeaderPfx ++ key.drop 1
  else if goStartsWith key "grpc-" then DaprHeaderPfx ++ key
  else key

/-! ## Trace propagation (the four directional paths) -/

/-- Modelled from the spec: `diag.SpanContextToHTTPHeaders` "yields
`traceparent` and optionally `tracestate`" — the header-pair emission of a
span context, as the ordered list of `setHeader` calls. -/
def spanContextToHTTPHeadersList (sc : SpanContext) : List (String × String) :=
  (TraceparentHeader, spanContextToW3CString sc) ::
  (if sc.traceState = "" then [] else [(TracestateHeader, sc.traceState)])

/-- Emission `diag.SpanContextToHTTPHeaders` with `md.Set` as the header sink. -/
def spanContextSetHTTPHeadersMD (sc : SpanContext) (md : MD) : MD :=
  (spanContextToHTTPHeadersList sc).foldl (fun md p => mdSetKV md p.1 [p.2]) md

/-- Function `processGRPCToHTTPTraceHeaders`.  The ambient span stands for
`diagUtils.SpanFromContext(ctx).SpanContext()`.  The source ignores the
base64 error and passes the partially decoded bytes on; a partial decode has
length a multiple of 3, never the 29 bytes a binary token needs, so it is
extensionally equal to parsing the empty byte string. -/
def processGRPCToHTTPTraceHeaders (ambient : SpanContext)
    (traceContext : String) : List (String × String) :=
  let decoded := (b64Decode (strBytes traceContext)).getD []
  match spanContextFromBinary decoded with
  | some sc => spanContextToHTTPHeadersList sc
  | none => spanContextToHTTPHeadersList ambient

/-- Function `processHTTPToHTTPTraceHeaders`. -/
def processHTTPToHTTPTraceHeaders (ambient : SpanContext)
    (traceparentValue traceStateValue : String) : List (String × String) :=
  if traceparentValue = "" then spanContextToHTTPHeadersList ambient
  else
    (TraceparentHeader, traceparentValue) ::
    (if traceStateValue ≠ "" then [(TracestateHeader, traceStateValue)] else [])

/-- Function `processHTTPToGRPCTraceHeader`: parse the inbound W3C pair (falling back
to the ambient span on failure), then dual-emit the mirrored W3C headers and
the binary `grpc-trace-bin` key. -/
def processHTTPToGRPCTraceHeader (ambient : SpanContext) (md : MD)
    (traceparentValue traceStateValue : String) : MD :=
  let sc :=
    match spanContextFromW3CString traceparentValue with
    | some sc0 => { sc0 with traceState := traceStateFromW3CString traceStateValue }
    | none => ambient
  let md := spanContextSetHTTPHeadersMD sc md
  mdSetKV md GRPCTraceContextKey [bytesStr (binaryFromSpanContext sc)]

/-- Function `processGRPCToGRPCTraceHeader`: empty inbound token → dual-emit the
ambient span; non-empty token → base64-decode, dual-emit on success (W3C
mirror only when the binary parse succeeds), and do nothing at all when the
base64 decode fails. -/
def processGRPCToGRPCTraceHeader (ambient : SpanContext) (md : MD)
    (grpctracebinValue : String) : MD :=
  if grpctracebinValue = "" then
    let md := spanContextSetHTTPHeadersMD ambient md
    mdSetKV md GRPCTraceContextKey [bytesStr (binaryFromSpanContext ambient)]
  else
    match goBase64DecodeStr grpctracebinValue with
    | some decoded =>
        let md :=
          match spanContextFromBinary (strBytes decoded) with
          | some sc => spanContextSetHTTPHeadersMD sc md
          | none => md
        mdSetKV md GRPCTraceContextKey [decoded]
    | none => md

/-! ## Metadata bridging -/

/-- Function `IsGRPCProtocol`: prefix-match of the first `content-type` value against
the gRPC media type.  `none` models the panic of indexing `GetValues()[0]`
on an empty value list. -/
def IsGRPCProtocol (internalMD : DaprInternalMetadata) : Option Bool :=
  match imdLookup internalMD ContentTypeHeader with
  | some vs =>
      if vs.isEmpty then none
      else some (goStartsWith (vs.headD "") GRPCContentType)
  | none => some (goStartsWith "" GRPCContentType)

/-- Loop state of the two bridging loops: the three diverted trace values
plus the accumulated output. -/
structure BridgeSt (α : Type) where
  tp : String
  ts : String
  gtb : String
  acc : α
deriving DecidableEq

/-- One iteration of the `InternalMetadataToGrpcMetadata` loop; `none`
models the panic of `GetValues()[0]` on an empty value list. -/
def grpcMDStep (conv : Bool) (st : BridgeSt MD) (e : String × List String) :
    Option (BridgeSt MD) :=
  let keyName := goToLower e.1
  if keyName = TraceparentHeader then
    if e.2.isEmpty then none else some { st with tp := e.2.headD "" }
  else if keyName = TracestateHeader then
    if e.2.isEmpty then none else some { st with ts := e.2.headD "" }
  else if keyName = GRPCTraceContextKey then
    if e.2.isEmpty then none else some { st with gtb := e.2.headD "" }
  else if keyName = DestinationIDHeader then some st
  else
    let keyName := if conv ∧ isPermanentHTTPHeader e.1 then DaprHeaderPfx ++ keyName
                   else keyName
    if goEndsWith e.1 gRPCBinaryMetadataSfx then
      some { st with acc := e.2.foldl (fun md v =>
        match goBase64DecodeStr v with
        | some decoded => mdAppendKV md keyName [decoded]
        | none => md) st.acc }
    else some { st with acc := mdAppendKV st.acc keyName e.2 }

def grpcMDLoop (conv : Bool) : List (String × List String) → BridgeSt MD →
    Option (BridgeSt MD)
  | [], st => some st
  | e :: rest, st =>
      match grpcMDStep conv st e with
      | none => none
      | some st' => grpcMDLoop conv rest st'

/-- Function `InternalMetadataToGrpcMetadata`: bridge the internal metadata into gRPC
metadata, then attach the outgoing trace context by source protocol. -/
def InternalMetadataToGrpcMetadata (ambient : SpanContext)
    (internalMD : DaprInternalMetadata) (httpHeaderConversion : Bool) :
    Option MD :=
  match grpcMDLoop httpHeaderConversion internalMD ⟨"", "", "", mdEmpty⟩ with
  | none => none
  | some st =>
      match IsGRPCProtocol internalMD with
      | none => none
      | some true => some (processGRPCToGRPCTraceHeader ambient st.acc st.gtb)
      | some false => some (processHTTPToGRPCTraceHeader ambient st.acc st.tp st.ts)

/-- One iteration of the `InternalMetadataToHTTPHeader` loop (total: keys
with empty value lists are skipped before any indexing). -/
def httpHeaderStep (st : BridgeSt (List (String × String)))
    (e : String × List String) : BridgeSt (List (String × String)) :=
  if e.2.isEmpty then st
  else
    let keyName := goToLower e.1
    if keyName = TraceparentHeader then { st with tp := e.2.headD "" }
    else if keyName = TracestateHeader then { st with ts := e.2.headD "" }
    else if keyName = GRPCTraceContextKey then { st with gtb := e.2.headD "" }
    else if keyName = DestinationIDHeader then st
    else if keyName = BaggageHeader then
      { st with acc := st.acc ++ [(BaggageHeader, e.2.headD "")] }
    else if goEndsWith keyName gRPCBinaryMetadataSfx ∨ keyName = ContentTypeHeader then st
    else
      { st with acc := st.acc ++
          e.2.map (fun v => (ReservedGRPCMetadataToDaprPfxHeader keyName, v)) }

/-- Function `InternalMetadataToHTTPHeader`: emit HTTP headers via `setHeader` calls
(collected in order), then the outgoing trace headers by source protocol.
`none` models the panic of the final `IsGRPCProtocol` on an empty
`content-type` value list — the loop itself skips empty lists. -/
def InternalMetadataToHTTPHeader (ambient : SpanContext)
    (internalMD : DaprInternalMetadata) : Option (List (String × String)) :=
  let st := internalMD.foldl httpHeaderStep ⟨"", "", "", []⟩
  match IsGRPCProtocol internalMD with
  | none => none
  | some true => some (st.acc ++ processGRPCToHTTPTraceHeaders ambient st.gtb)
  | some false => some (st.acc ++ processHTTPToHTTPTraceHeaders ambient st.tp st.ts)

/-! ## Status / code translation

gRPC codes are `codes.Code` (uint32) values, modelled as `Nat`; HTTP status
codes are Go `int`s, non-negative at every call site, modelled as `Nat`. -/

def codeOK : Nat := 0
def codeCanceled : Nat := 1
def codeUnknown : Nat := 2
def codeInvalidArgument : Nat := 3
def codeDeadlineExceeded : Nat := 4
def codeNotFound : Nat := 5
def codeAlreadyExists : Nat := 6
def codePermissionDenied : Nat := 7
def codeResourceExhausted : Nat := 8
def codeFailedPrecondition : Nat := 9
def codeAborted : Nat := 10
def codeOutOfRange : Nat := 11
def codeUnimplemented : Nat := 12
def codeInternal : Nat := 13
def codeUnavailable : Nat := 14
def codeDataLoss : Nat := 15
def codeUnauthenticated : Nat := 16

/-- Function `HTTPStatusFromCode`: gRPC code → HTTP status (the Go `switch` as a
value-equality chain), defaulting to 500. -/
def HTTPStatusFromCode (code : Nat) : Nat :=
  if code = codeOK then 200
  else if code = codeCanceled then 408
  else if code = codeUnknown then 500
  else if code = codeInvalidArgument then 400
  else if code = codeDeadlineExceeded then 504
  else if code = codeNotFound then 404
  else if code = codeAlreadyExists then 409
  else if code = codePermissionDenied then 403
  else if code = codeUnauthenticated then 401
  else if code = codeResourceExhausted then 429
  -- FailedPrecondition deliberately does not translate to 412.
  else if code = codeFailedPrecondition then 400
  else if code = codeAborted then 409
  else if code = codeOutOfRange then 400
  else if code = codeUnimplemented then 501
  else if code = codeInternal then 500
  else if code = codeUnavailable then 503
  else if code = codeDataLoss then 500
  else 500

/-- Function `CodeFromHTTPStatus`: HTTP status → gRPC code, 2xx → OK, defaulting to
Unknown. -/
def CodeFromHTTPStatus (httpStatusCode : Nat) : Nat :=
  if 200 ≤ httpStatusCode ∧ httpStatusCode < 300 then codeOK
  else if httpStatusCode = 408 then codeCanceled
  else if httpStatusCode = 500 then codeUnknown
  else if httpStatusCode = 400 then codeInternal
  else if httpStatusCode = 504 then codeDeadlineExceeded
  else if httpStatusCode = 404 then codeNotFound
  else if httpStatusCode = 409 then codeAlreadyExists
  else if httpStatusCode = 403 then codePermissionDenied
  else if httpStatusCode = 401 then codeUnauthenticated
  else if httpStatusCode = 429 then codeResourceExhausted
  else if httpStatusCode = 501 then codeUnimplemented
  else if httpStatusCode = 503 then codeUnavailable
  else codeUnknown

/-- Modelled from the spec: `net/http.StatusText`, the "standard HTTP reason
phrase" for the statuses this layer produces ("" for unknown codes). -/
def statusText : Nat → String
  | 200 => "OK"
  | 400 => "Bad Request"
  | 401 => "Unauthorized"
  | 403 => "Forbidden"
  | 404 => "Not Found"
  | 408 => "Request Timeout"
  | 409 => "Conflict"
  | 429 => "Too Many Requests"
  | 500 => "Internal Server Error"
  | 501 => "Not Implemented"
  | 503 => "Service Unavailable"
  | 504 => "Gateway Timeout"
  | _ => ""

/-- The `errdetails.ErrorInfo` detail attached to translated errors
(metadata restricted to the two keys the source writes). -/
structure ErrorInfo where
  reason : String
  domain : String
  httpCode : String
  httpErrorMessage : String
deriving DecidableEq

/-- A gRPC status error: code, message and attached details. -/
structure GrpcStatusError where
  code : Nat
  message : String
  details : List ErrorInfo
deriving DecidableEq

/-- Function `ErrorFromHTTPResponseCode`: `none` is Go `nil` (no error).  The detail
is truncated to `maxMetadataValueLen` characters when at least that long.
(`WithDetails` cannot fail here — the code is never `OK` on this branch and
the message is a plain proto — so the detail is always attached.) -/
def ErrorFromHTTPResponseCode (code : Nat) (detail : String) :
    Option GrpcStatusError :=
  let grpcCode := CodeFromHTTPStatus code
  if grpcCode = codeOK then none
  else
    let httpStatusText := statusText code
    let detail := if maxMetadataValueLen ≤ detail.length
                  then goTruncate detail maxMetadataValueLen else detail
    some { code := grpcCode, message := httpStatusText,
           details := [{ reason := httpStatusText, domain := errorInfoDomain,
                         httpCode := toString code,
                         httpErrorMessage := detail }] }

/-! ## RPC metrics recorder (`pkg/diagnostics` grpc metrics)

Measurement names are from the source; the tag keys are `app_id` (the
diagnostics-wide app-id key, modelled from the spec's dimension sets),
`grpc_server_method`/`grpc_server_status` and the client counterparts.
Wall-clock is abstracted into the elapsed whole milliseconds
(`time.Since(start) / time.Millisecond` is integer division). -/

structure Measurement where
  name : String
  tags : List (String × String)
  value : Int
deriving DecidableEq

/-- The recorder's state: `appID` and the enabled flag set by `Init`. -/
structure GrpcMetricsState where
  appID : String
  enabled : Bool
deriving DecidableEq

/-- Constructor `newGRPCMetrics` starts disabled; `Init` enables. -/
def newGRPCMetrics : GrpcMetricsState := { appID := "", enabled := false }

/-- Predicate `IsEnabled`: `g != nil && g.enabled` (a `none` receiver is Go `nil`). -/
def IsEnabled (g : Option GrpcMetricsState) : Bool :=
  match g with
  | none => false
  | some g => g.enabled

def serverTags (g : GrpcMetricsState) (method status : String) :
    List (String × String) :=
  [("app_id", g.appID), ("grpc_server_method", method),
   ("grpc_server_status", status)]

def clientTags (g : GrpcMetricsState) (method status : String) :
    List (String × String) :=
  [("app_id", g.appID), ("grpc_client_method", method),
   ("grpc_client_status", status)]

/-- Recorder `ServerRequestSent`: unary server completion. -/
def ServerRequestSent (g? : Option GrpcMetricsState) (method status : String)
    (reqContentSize resContentSize : Int) (elapsedMs : Nat) : List Measurement :=
  if ¬ IsEnabled g? then []
  else
    match g? with
    | none => []
    | some g =>
        [⟨"grpc.io/server/completed_rpcs", serverTags g method status, 1⟩,
         ⟨"grpc.io/server/received_bytes_per_rpc",
           [("app_id", g.appID), ("grpc_server_method", method)], reqContentSize⟩,
         ⟨"grpc.io/server/sent_bytes_per_rpc",
           [("app_id", g.appID), ("grpc_server_method", method)], resContentSize⟩,
         ⟨"grpc.io/server/server_latency", serverTags g method status, elapsedMs⟩]

/-- Recorder `StreamServerRequestSent`: streaming server completion (no byte counts). -/
def StreamServerRequestSent (g? : Option GrpcMetricsState)
    (method status : String) (elapsedMs : Nat) : List Measurement :=
  if ¬ IsEnabled g? then []
  else
    match g? with
    | none => []
    | some g =>
        [⟨"grpc.io/server/completed_rpcs", serverTags g method status, 1⟩,
         ⟨"grpc.io/server/server_latency", serverTags g method status, elapsedMs⟩]

/-- Recorder `StreamClientRequestSent`: streaming client completion (no byte counts). -/
def StreamClientRequestSent (g? : Option GrpcMetricsState)
    (method status : String) (elapsedMs : Nat) : List Measurement :=
  if ¬ IsEnabled g? then []
  else
    match g? with
    | none => []
    | some g =>
        [⟨"grpc.io/client/completed_rpcs", clientTags g method status, 1⟩,
         ⟨"grpc.io/client/roundtrip_latency", clientTags g method status, elapsedMs⟩]

/-- Recorder `ClientRequestReceived`: unary client completion. -/
def ClientRequestReceived (g? : Option GrpcMetricsState) (method status : String)
    (reqContentSize resContentSize : Int) (elapsedMs : Nat) : List Measurement :=
  if ¬ IsEnabled g? then []
  else
    match g? with
    | none => []
    | some g =>
        [⟨"grpc.io/client/completed_rpcs", clientTags g method status, 1⟩,
         ⟨"grpc.io/client/roundtrip_latency", clientTags g method status, elapsedMs⟩,
         ⟨"grpc.io/client/sent_bytes_per_rpc",
           [("app_id", g.appID), ("grpc_client_method", method)], reqContentSize⟩,
         ⟨"grpc.io/client/received_bytes_per_rpc",
           [("app_id", g.appID), ("grpc_client_method", method)], resContentSize⟩]

/-- Recorder `AppHealthProbeCompleted`: health probe completion (no method tag). -/
def AppHealthProbeCompleted (g? : Option GrpcMetricsState) (status : String)
    (elapsedMs : Nat) : List Measurement :=
  if ¬ IsEnabled g? then []
  else
    match g? with
    | none => []
    | some g =>
        [⟨"grpc.io/healthprobes/completed_count",
           [("app_id", g.appID), ("grpc_client_status", status)], 1⟩,
         ⟨"grpc.io/healthprobes/roundtrip_latency",
           [("app_id", g.appID), ("grpc_client_status", status)], elapsedMs⟩]

/-! ## Helper lemmas -/

theorem isEmpty_false_of_ne_nil {α : Type} {vs : List α} (h : vs ≠ []) :
    vs.isEmpty = false := by
  cases vs with
  | nil => exact absurd rfl h
  | cons v rest => rfl

theorem mdGet_setKV_self (md : MD) (k : String) (vs : List String)
    (h : vs ≠ []) : mdGet (mdSetKV md k vs) k = vs := by
  simp [mdSetKV, mdGet, isEmpty_false_of_ne_nil h]

theorem mdGet_setKV_ne (md : MD) (k k' : String) (vs : List String)
    (h : k' ≠ k) : mdGet (mdSetKV md k vs) k' = mdGet md k' := by
  by_cases he : vs.isEmpty <;> simp [mdSetKV, mdGet, he, h]

theorem mdGet_appendKV_self (md : MD) (k : String) (vs : List String)
    (h : vs ≠ []) : mdGet (mdAppendKV md k vs) k = mdGet md k ++ vs := by
  simp [mdAppendKV, mdGet, isEmpty_false_of_ne_nil h]

theorem mdGet_appendKV_ne (md : MD) (k k' : String) (vs : List String)
    (h : k' ≠ k) : mdGet (mdAppendKV md k vs) k' = mdGet md k' := by
  by_cases he : vs.isEmpty <;> simp [mdAppendKV, mdGet, he, h]

theorem sshmMD_traceparent (sc : SpanContext) (md : MD) :
    mdGet (spanContextSetHTTPHeadersMD sc md) TraceparentHeader
      = [spanContextToW3CString sc] := by
  by_cases h : sc.traceState = ""
  · simp only [spanContextSetHTTPHeadersMD, spanContextToHTTPHeadersList, h,
      if_pos rfl, List.foldl_cons, List.foldl_nil]
    exact mdGet_setKV_self _ _ _ (by simp)
  · simp only [spanContextSetHTTPHeadersMD, spanContextToHTTPHeadersList,
      if_neg h, List.foldl_cons, List.foldl_nil]
    rw [mdGet_setKV_ne _ _ _ _ (by decide)]
    exact mdGet_setKV_self _ _ _ (by simp)

theorem sshmMD_tracestate (sc : SpanContext) (md : MD)
    (h : sc.traceState ≠ "") :
    mdGet (spanContextSetHTTPHeadersMD sc md) TracestateHeader
      = [sc.traceState] := by
  simp only [spanContextSetHTTPHeadersMD, spanContextToHTTPHeadersList,
    if_neg h, List.foldl_cons, List.foldl_nil]
  exact mdGet_setKV_self _ _ _ (by simp)

theorem sshmMD_ne (sc : SpanContext) (md : MD) (k : String)
    (h1 : k ≠ TraceparentHeader) (h2 : k ≠ TracestateHeader) :
    mdGet (spanContextSetHTTPHeadersMD sc md) k = mdGet md k := by
  by_cases h : sc.traceState = ""
  · simp only [spanContextSetHTTPHeadersMD, spanContextToHTTPHeadersList, h,
      if_pos rfl, List.foldl_cons, List.foldl_nil]
    exact mdGet_setKV_ne _ _ _ _ h1
  · simp only [spanContextSetHTTPHeadersMD, spanContextToHTTPHeadersList,
      if_neg h, List.foldl_cons, List.foldl_nil]
    rw [mdGet_setKV_ne _ _ _ _ h2]
    exact mdGet_setKV_ne _ _ _ _ h1

theorem processHTTPToGRPC_no_inbound (amb : SpanContext) (md : MD) (ts : String) :
    mdGet (processHTTPToGRPCTraceHeader amb md "" ts) TraceparentHeader
        = [spanContextToW3CString amb] ∧
    mdGet (processHTTPToGRPCTraceHeader amb md "" ts) GRPCTraceContextKey
        = [bytesStr (binaryFromSpanContext amb)] ∧
    (amb.traceState ≠ "" →
      mdGet (processHTTPToGRPCTraceHeader amb md "" ts) TracestateHeader
        = [amb.traceState]) := by
  have hparse : spanContextFromW3CString "" = none := by decide
  simp only [processHTTPToGRPCTraceHeader, hparse]
  refine ⟨?_, ?_, fun hts => ?_⟩
  · rw [mdGet_setKV_ne _ GRPCTraceContextKey TraceparentHeader _ (by decide)]
    exact sshmMD_traceparent amb md
  · exact mdGet_setKV_self _ GRPCTraceContextKey _ (by simp)
  · rw [mdGet_setKV_ne _ GRPCTraceContextKey TracestateHeader _ (by decide)]
    exact sshmMD_tracestate amb md hts

theorem processHTTPToGRPC_gtb_nonempty (amb : SpanContext) (md : MD)
    (tp ts : String) :
    mdGet (processHTTPToGRPCTraceHeader amb md tp ts) GRPCTraceContextKey ≠ [] := by
  simp only [processHTTPToGRPCTraceHeader]
  rw [mdGet_setKV_self _ _ _ (by simp)]
  simp

theorem processHTTPToGRPC_ne (amb : SpanContext) (md : MD) (tp ts k : String)
    (h1 : k ≠ TraceparentHeader) (h2 : k ≠ TracestateHeader)
    (h3 : k ≠ GRPCTraceContextKey) :
    mdGet (processHTTPToGRPCTraceHeader amb md tp ts) k = mdGet md k := by
  simp only [processHTTPToGRPCTraceHeader]
  rw [mdGet_setKV_ne _ _ _ _ h3]
  exact sshmMD_ne _ _ _ h1 h2

theorem processGRPCToGRPC_empty_token (amb : SpanContext) (md : MD) :
    mdGet (processGRPCToGRPCTraceHeader amb md "") GRPCTraceContextKey
        = [bytesStr (binaryFromSpanContext amb)] ∧
    mdGet (processGRPCToGRPCTraceHeader amb md "") TraceparentHeader
        = [spanContextToW3CString amb] := by
  simp only [processGRPCToGRPCTraceHeader, eq_self_iff_true, if_true]
  constructor
  · exact mdGet_setKV_self _ GRPCTraceContextKey
      [bytesStr (binaryFromSpanContext amb)] (by simp)
  · rw [mdGet_setKV_ne _ GRPCTraceContextKey TraceparentHeader _ (by decide)]
    exact sshmMD_traceparent amb md

theorem processGRPCToGRPC_decoded_token (amb : SpanContext) (md : MD)
    (g d : String) (hg : g ≠ "") (hd : goBase64DecodeStr g = some d) :
    mdGet (processGRPCToGRPCTraceHeader amb md g) GRPCTraceContextKey = [d] := by
  simp only [processGRPCToGRPCTraceHeader, if_neg hg, hd]
  cases hsb : spanContextFromBinary (strBytes d) <;>
    · simp only [hsb]
      exact mdGet_setKV_self _ GRPCTraceContextKey [d] (by simp)

/-- The outgoing `traceparent` emitted by `spanContextToHTTPHeadersList`. -/
theorem spanContextToHTTPHeadersList_tp (sc : SpanContext) :
    ∃ v, (TraceparentHeader, v) ∈ spanContextToHTTPHeadersList sc :=
  ⟨spanContextToW3CString sc, by simp [spanContextToHTTPHeadersList]⟩

/-! Loop lemmas for `InternalMetadataToGrpcMetadata`. -/

theorem grpcMDStep_total (conv : Bool) (st : BridgeSt MD)
    (e : String × List String) (h : e.2 ≠ []) :
    (grpcMDStep conv st e).isSome := by
  simp only [grpcMDStep, isEmpty_false_of_ne_nil h]
  split_ifs <;> simp_all

theorem grpcMDLoop_total (conv : Bool) (m : DaprInternalMetadata) :
    ∀ (st : BridgeSt MD),
      (∀ p ∈ m, p.2 ≠ []) → (grpcMDLoop conv m st).isSome := by
  induction m with
  | nil => intro st _; simp [grpcMDLoop]
  | cons e rest ih =>
      intro st h
      cases hstep : grpcMDStep conv st e with
      | none =>
          have hs := grpcMDStep_total conv st e (h e (by simp))
          rw [hstep] at hs
          simp at hs
      | some st' =>
          simp only [grpcMDLoop, hstep]
          exact ih st' (fun p hp => h p (by simp [hp]))

theorem grpcMDStep_tp (conv : Bool) (st st' : BridgeSt MD)
    (e : String × List String) (h : goToLower e.1 ≠ TraceparentHeader)
    (heq : grpcMDStep conv st e = some st') : st'.tp = st.tp := by
  simp only [grpcMDStep] at heq
  split_ifs at heq <;>
    first
      | exact absurd (by assumption) h
      | (injection heq with heq; rw [← heq])

theorem grpcMDLoop_tp (conv : Bool) (m : DaprInternalMetadata) :
    ∀ (st st' : BridgeSt MD),
      grpcMDLoop conv m st = some st' →
      (∀ p ∈ m, goToLower p.1 ≠ TraceparentHeader) → st'.tp = st.tp := by
  induction m with
  | nil =>
      intro st st' heq _
      simp only [grpcMDLoop] at heq
      injection heq with heq; rw [heq]
  | cons e rest ih =>
      intro st st' heq h
      simp only [grpcMDLoop] at heq
      cases hstep : grpcMDStep conv st e with
      | none => rw [hstep] at heq; exact absurd heq (by simp)
      | some st1 =>
          rw [hstep] at heq
          rw [ih st1 st' heq (fun p hp => h p (by simp [hp]))]
          exact grpcMDStep_tp conv st st1 e (h e (by simp)) hstep

theorem daprPfx_ne_tp (x : String) : DaprHeaderPfx ++ x ≠ TraceparentHeader := by
  cases x with
  | mk xd =>
      intro h
      have h2 := congrArg String.data h
      simp [DaprHeaderPfx, TraceparentHeader] at h2

theorem daprPfx_ne_ts (x : String) : DaprHeaderPfx ++ x ≠ TracestateHeader := by
  cases x with
  | mk xd =>
      intro h
      have h2 := congrArg String.data h
      simp [DaprHeaderPfx, TracestateHeader] at h2

theorem daprPfx_ne_gtb (x : String) : DaprHeaderPfx ++ x ≠ GRPCTraceContextKey := by
  cases x with
  | mk xd =>
      intro h
      have h2 := congrArg String.data h
      simp [DaprHeaderPfx, GRPCTraceContextKey] at h2

theorem IsGRPCProtocol_single_ne (k : String) (vs : List String)
    (h : k ≠ ContentTypeHeader) : IsGRPCProtocol [(k, vs)] = some false := by
  have hb : (k == ContentTypeHeader) = false := beq_eq_false_iff_ne.mpr h
  simp only [IsGRPCProtocol, imdLookup, List.find?, hb]
  decide

theorem IsGRPCProtocol_total (m : DaprInternalMetadata)
    (h : ∀ p ∈ m, p.2 ≠ []) : (IsGRPCProtocol m).isSome := by
  unfold IsGRPCProtocol imdLookup
  cases hf : m.find? (fun p => p.1 == ContentTypeHeader) with
  | none => simp
  | some p =>
      have hp : p ∈ m := List.mem_of_find?_eq_some hf
      simp [isEmpty_false_of_ne_nil (h p hp)]

theorem imd2grpc_total (amb : SpanContext) (m : DaprInternalMetadata)
    (conv : Bool) (h : ∀ p ∈ m, p.2 ≠ []) :
    (InternalMetadataToGrpcMetadata amb m conv).isSome := by
  unfold InternalMetadataToGrpcMetadata
  obtain ⟨st, hst⟩ := Option.isSome_iff_exists.mp
    (grpcMDLoop_total conv m ⟨"", "", "", mdEmpty⟩ h)
  rw [hst]
  obtain ⟨b, hb⟩ := Option.isSome_iff_exists.mp (IsGRPCProtocol_total m h)
  rw [hb]
  cases b <;> simp

/-- Bridging a one-entry metadata map whose key is none of the diverted
keys: the loop runs its generic branch and the HTTP trace path follows. -/
theorem imd_single_plain (amb : SpanContext) (conv : Bool) (k : String)
    (vs : List String)
    (h1 : goToLower k ≠ TraceparentHeader) (h2 : goToLower k ≠ TracestateHeader)
    (h3 : goToLower k ≠ GRPCTraceContextKey)
    (h4 : goToLower k ≠ DestinationIDHeader) (hct : k ≠ ContentTypeHeader) :
    InternalMetadataToGrpcMetadata amb [(k, vs)] conv =
      some (processHTTPToGRPCTraceHeader amb
        (if goEndsWith k gRPCBinaryMetadataSfx then
           vs.foldl (fun md v =>
             match goBase64DecodeStr v with
             | some decoded =>
                 mdAppendKV md (if conv ∧ isPermanentHTTPHeader k then
                   DaprHeaderPfx ++ goToLower k else goToLower k) [decoded]
             | none => md) mdEmpty
         else
           mdAppendKV mdEmpty (if conv ∧ isPermanentHTTPHeader k then
             DaprHeaderPfx ++ goToLower k else goToLower k) vs)
        "" "") := by
  simp only [InternalMetadataToGrpcMetadata, grpcMDLoop, grpcMDStep]
  rw [if_neg h1, if_neg h2, if_neg h3, if_neg h4]
  rw [IsGRPCProtocol_single_ne k vs hct]
  by_cases hbin : goEndsWith k gRPCBinaryMetadataSfx = true
  · rw [if_pos hbin, if_pos hbin]
  · rw [if_neg hbin, if_neg hbin]

set_option maxHeartbeats 2000000 in
theorem codeFrom_ne_ok (code : Nat) (h : ¬(200 ≤ code ∧ code < 300)) :
    CodeFromHTTPStatus code ≠ codeOK := by
  unfold CodeFromHTTPStatus
  rw [if_neg h]
  split_ifs <;> decide

theorem goTruncate_length (s : String) (n : Nat) (h : n ≤ s.length) :
    (goTruncate s n).length = n := by
  simp only [goTruncate, String.length] at *
  simp only [List.length_take]
  omega

theorem HTTPStatusFromCode_default (code : Nat) (h : 16 < code) :
    HTTPStatusFromCode code = 500 := by
  simp only [HTTPStatusFromCode, codeOK, codeCanceled, codeUnknown,
    codeInvalidArgument, codeDeadlineExceeded, codeNotFound, codeAlreadyExists,
    codePermissionDenied, codeUnauthenticated, codeResourceExhausted,
    codeFailedPrecondition, codeAborted, codeOutOfRange, codeUnimplemented,
    codeInternal, codeUnavailable, codeDataLoss]
  repeat rw [if_neg (by omega)]

/-! ## Claims -/

/-- Claim C2 (counterexample): the claim says `CodeFromHTTPStatus 400` is
INVALID_ARGUMENT; the code returns INTERNAL (13), not INVALID_ARGUMENT (3). -/
theorem C2_counterexample : CodeFromHTTPStatus 400 ≠ codeInvalidArgument := by
  decide

/-- Claim C2 (amended): the HTTP→gRPC status translation maps HTTP status 400
to the gRPC code INTERNAL (mirroring the gRPC `http-grpc-status-mapping`
document), not INVALID_ARGUMENT. -/
theorem C2_http400_to_internal : CodeFromHTTPStatus 400 = codeInternal := by
  decide

/-- Claim C3: `HTTPStatusFromCode` is total — every gRPC code (any uint32
value) yields one of the valid HTTP statuses of the table, with unmapped
codes defaulting to 500 — and the composition is lossy: FAILED_PRECONDITION
and OUT_OF_RANGE both map to HTTP 400, and translating 400 back yields
INTERNAL, not the original code. -/
theorem C3_status_translation_total_lossy :
    (∀ code : Nat, HTTPStatusFromCode code ∈
      [200, 408, 500, 400, 504, 404, 409, 403, 401, 429, 501, 503]) ∧
    (∀ code : Nat, 16 < code → HTTPStatusFromCode code = 500) ∧
    HTTPStatusFromCode codeFailedPrecondition = 400 ∧
    HTTPStatusFromCode codeOutOfRange = 400 ∧
    CodeFromHTTPStatus (HTTPStatusFromCode codeFailedPrecondition) = codeInternal ∧
    CodeFromHTTPStatus (HTTPStatusFromCode codeOutOfRange) = codeInternal ∧
    codeInternal ≠ codeFailedPrecondition ∧ codeInternal ≠ codeOutOfRange := by
  refine ⟨?_, fun code h => HTTPStatusFromCode_default code h,
    by decide, by decide, by decide, by decide, by decide, by decide⟩
  intro code
  rcases Nat.lt_or_ge code 17 with h | h
  · interval_cases code <;> decide
  · rw [HTTPStatusFromCode_default code (by omega)]
    decide

/-- Claim C3 witness: the totality conjuncts applied at gRPC codes 10 and 99. -/
theorem C3_witness :
    HTTPStatusFromCode 10 ∈
      [200, 408, 500, 400, 504, 404, 409, 403, 401, 429, 501, 503] ∧
    HTTPStatusFromCode 99 = 500 :=
  ⟨C3_status_translation_total_lossy.1 10,
   C3_status_translation_total_lossy.2.1 99 (by decide)⟩

/-- Claim C6: every HTTP status in 200–299 translates to the gRPC code OK, and
`ErrorFromHTTPResponseCode` returns nil for it whatever the detail string. -/
theorem C6_http_2xx_ok_nil :
    ∀ code : Nat, 200 ≤ code → code < 300 →
      CodeFromHTTPStatus code = codeOK ∧
      ∀ detail : String, ErrorFromHTTPResponseCode code detail = none := by
  intro code h1 h2
  have hc : CodeFromHTTPStatus code = codeOK := by
    unfold CodeFromHTTPStatus
    rw [if_pos ⟨h1, h2⟩]
  exact ⟨hc, fun detail => by simp [ErrorFromHTTPResponseCode, hc]⟩

/-- Claim C6 witness: status 204 with an arbitrary detail string. -/
theorem C6_witness :
    CodeFromHTTPStatus 204 = codeOK ∧
    ErrorFromHTTPResponseCode 204 "some failure detail" = none :=
  ⟨(C6_http_2xx_ok_nil 204 (by decide) (by decide)).1,
   (C6_http_2xx_ok_nil 204 (by decide) (by decide)).2 "some failure detail"⟩

/-- Claim C7: for every non-2xx status and detail of length ≥ 63 the built
error carries an ErrorInfo detail with domain `dapr.io`, reason the standard
HTTP reason phrase, `http.code` the decimal code, and an
`http.error_message` of exactly 63 characters. -/
theorem C7_error_detail_truncation :
    ∀ (code : Nat) (detail : String), ¬(200 ≤ code ∧ code < 300) →
      maxMetadataValueLen ≤ detail.length →
      ∃ e, ErrorFromHTTPResponseCode code detail = some e ∧
        e.code = CodeFromHTTPStatus code ∧
        e.message = statusText code ∧
        e.details = [{ reason := statusText code, domain := errorInfoDomain,
                       httpCode := toString code,
                       httpErrorMessage := goTruncate detail maxMetadataValueLen }] ∧
        (goTruncate detail maxMetadataValueLen).length = maxMetadataValueLen := by
  intro code detail h hlen
  have hne := codeFrom_ne_ok code h
  have heq : ErrorFromHTTPResponseCode code detail =
      some { code := CodeFromHTTPStatus code, message := statusText code,
             details := [{ reason := statusText code, domain := errorInfoDomain,
                           httpCode := toString code,
                           httpErrorMessage :=
                             goTruncate detail maxMetadataValueLen }] } := by
    simp only [ErrorFromHTTPResponseCode, if_neg hne, if_pos hlen]
  exact ⟨_, heq, rfl, rfl, rfl, goTruncate_length detail maxMetadataValueLen hlen⟩

/-- Claim C7 witness: a 100-character detail with status 404 is truncated to
exactly 63 characters. -/
theorem C7_witness :
    ∃ e, ErrorFromHTTPResponseCode 404 ⟨List.replicate 100 'a'⟩ = some e ∧
      e.code = CodeFromHTTPStatus 404 ∧
      e.message = statusText 404 ∧
      e.details = [{ reason := statusText 404, domain := errorInfoDomain,
                     httpCode := toString 404,
                     httpErrorMessage :=
                       goTruncate ⟨List.replicate 100 'a'⟩ maxMetadataValueLen }] ∧
      (goTruncate ⟨List.replicate 100 'a'⟩ maxMetadataValueLen).length
        = maxMetadataValueLen :=
  C7_error_detail_truncation 404 ⟨List.replicate 100 'a'⟩ (by decide) (by decide)

/-- Claim C9: a recorder that is not enabled (nil receiver or fresh
`newGRPCMetrics` state) emits no measurement from any recording operation,
for any input. -/
theorem C9_disabled_recorder_noop :
    IsEnabled none = false ∧ IsEnabled (some newGRPCMetrics) = false ∧
    ∀ (g : Option GrpcMetricsState), IsEnabled g = false →
      (∀ method status reqSize resSize elapsed,
        ServerRequestSent g method status reqSize resSize elapsed = []) ∧
      (∀ method status elapsed,
        StreamServerRequestSent g method status elapsed = []) ∧
      (∀ method status elapsed,
        StreamClientRequestSent g method status elapsed = []) ∧
      (∀ method status reqSize resSize elapsed,
        ClientRequestReceived g method status reqSize resSize elapsed = []) ∧
      (∀ status elapsed, AppHealthProbeCompleted g status elapsed = []) := by
  refine ⟨rfl, rfl, fun g h => ⟨fun _ _ _ _ _ => ?_, fun _ _ _ => ?_,
    fun _ _ _ => ?_, fun _ _ _ _ _ => ?_, fun _ _ => ?_⟩⟩ <;>
    simp [ServerRequestSent, StreamServerRequestSent, StreamClientRequestSent,
      ClientRequestReceived, AppHealthProbeCompleted, h]

/-- Claim C9 witness: the nil recorder and the fresh disabled recorder emit
nothing for concrete calls. -/
theorem C9_witness :
    ServerRequestSent none "/svc/m" "OK" 10 20 5 = [] ∧
    AppHealthProbeCompleted (some newGRPCMetrics) "OK" 7 = [] :=
  ⟨(C9_disabled_recorder_noop.2.2 none rfl).1 "/svc/m" "OK" 10 20 5,
   (C9_disabled_recorder_noop.2.2 (some newGRPCMetrics) rfl).2.2.2.2 "OK" 7⟩

/-- A concrete ambient span context used by witnesses and counterexamples. -/
def ambW : SpanContext :=
  ⟨[1, 2, 3, 4, 5, 6, 7, 8, 9, 10, 11, 12, 13, 14, 15, 16],
   [1, 2, 3, 4, 5, 6, 7, 8], 1, "vendor=state"⟩

/-- Claim C1 (counterexample): on the gRPC→gRPC path a non-empty inbound
binary trace token that is malformed base64 makes the function emit nothing
at all — it does not fall back to the ambient span, so this input produces
no outgoing trace context. -/
theorem C1_counterexample :
    goBase64DecodeStr "%" = none ∧
    processGRPCToGRPCTraceHeader ambW mdEmpty "%" = mdEmpty ∧
    mdGet (processGRPCToGRPCTraceHeader ambW mdEmpty "%") GRPCTraceContextKey
      = [] ∧
    mdGet (processGRPCToGRPCTraceHeader ambW mdEmpty "%") TraceparentHeader
      = [] ∧
    mdGet (processGRPCToGRPCTraceHeader ambW mdEmpty "%") TracestateHeader
      = [] :=
  ⟨by decide, rfl, by decide, by decide, by decide⟩

/-- Claim C1 (amended): the HTTP→HTTP, gRPC→HTTP and HTTP→gRPC paths always
emit an outgoing trace context (falling back to the ambient span on missing
or malformed inbound context); the gRPC→gRPC path emits whenever the inbound
binary token is empty or decodes as base64 — but when the token is non-empty
malformed base64 it emits nothing (the case of the counterexample). -/
theorem C1_trace_emission_amended :
    (∀ (amb : SpanContext) (tp ts : String),
      ∃ v, (TraceparentHeader, v) ∈ processHTTPToHTTPTraceHeaders amb tp ts) ∧
    (∀ (amb : SpanContext) (tc : String),
      ∃ v, (TraceparentHeader, v) ∈ processGRPCToHTTPTraceHeaders amb tc) ∧
    (∀ (amb : SpanContext) (md : MD) (tp ts : String),
      mdGet (processHTTPToGRPCTraceHeader amb md tp ts) GRPCTraceContextKey
        ≠ []) ∧
    (∀ (amb : SpanContext) (md : MD),
      mdGet (processGRPCToGRPCTraceHeader amb md "") GRPCTraceContextKey
        ≠ []) ∧
    (∀ (amb : SpanContext) (md : MD) (g d : String), g ≠ "" →
      goBase64DecodeStr g = some d →
      mdGet (processGRPCToGRPCTraceHeader amb md g) GRPCTraceContextKey
        ≠ []) := by
  refine ⟨?_, ?_, ?_, ?_, ?_⟩
  · intro amb tp ts
    by_cases h : tp = ""
    · subst h
      simp only [processHTTPToHTTPTraceHeaders, if_pos rfl]
      exact spanContextToHTTPHeadersList_tp amb
    · exact ⟨tp, by simp [processHTTPToHTTPTraceHeaders, h]⟩
  · intro amb tc
    unfold processGRPCToHTTPTraceHeaders
    cases hm : spanContextFromBinary ((b64Decode (strBytes tc)).getD []) with
    | none => simp only [hm]; exact spanContextToHTTPHeadersList_tp amb
    | some sc => simp only [hm]; exact spanContextToHTTPHeadersList_tp sc
  · intro amb md tp ts
    exact processHTTPToGRPC_gtb_nonempty amb md tp ts
  · intro amb md
    rw [(processGRPCToGRPC_empty_token amb md).1]
    simp
  · intro amb md g d hg hd
    rw [processGRPCToGRPC_decoded_token amb md g d hg hd]
    simp

/-- Claim C1 witness: the gRPC→gRPC emission conjunct applied to the valid
base64 token `"AAAA"`. -/
theorem C1_witness :
    mdGet (processGRPCToGRPCTraceHeader ambW mdEmpty "AAAA") GRPCTraceContextKey
      ≠ [] :=
  C1_trace_emission_amended.2.2.2.2 ambW mdEmpty "AAAA" (bytesStr [0, 0, 0])
    (by decide) (by decide)

/-- Claim C4: bridging HTTP-originated internal metadata that carries no
traceparent sets both the binary `grpc-trace-bin` key (from the ambient
span) and the mirrored W3C `traceparent` (plus `tracestate` when the ambient
span has one) in the same outgoing gRPC metadata. -/
theorem C4_http_no_traceparent_dual_emission :
    ∀ (amb : SpanContext) (m : DaprInternalMetadata) (conv : Bool),
      IsGRPCProtocol m = some false →
      (∀ p ∈ m, goToLower p.1 ≠ TraceparentHeader) →
      (∀ p ∈ m, p.2 ≠ []) →
      ∃ md, InternalMetadataToGrpcMetadata amb m conv = some md ∧
        mdGet md TraceparentHeader = [spanContextToW3CString amb] ∧
        mdGet md GRPCTraceContextKey = [bytesStr (binaryFromSpanContext amb)] ∧
        (amb.traceState ≠ "" → mdGet md TracestateHeader = [amb.traceState]) := by
  intro amb m conv hproto htp hvals
  obtain ⟨st, hst⟩ := Option.isSome_iff_exists.mp
    (grpcMDLoop_total conv m ⟨"", "", "", mdEmpty⟩ hvals)
  have htp0 : st.tp = "" := grpcMDLoop_tp conv m _ st hst htp
  have hres : InternalMetadataToGrpcMetadata amb m conv =
      some (processHTTPToGRPCTraceHeader amb st.acc st.tp st.ts) := by
    simp only [InternalMetadataToGrpcMetadata, hst, hproto]
  rw [htp0] at hres
  obtain ⟨e1, e2, e3⟩ := processHTTPToGRPC_no_inbound amb st.acc st.ts
  exact ⟨_, hres, e1, e2, e3⟩

/-- The HTTP-originated metadata map of the C4 witness. -/
def mC4 : DaprInternalMetadata :=
  [(ContentTypeHeader, [JSONContentType]), ("Accept", ["text/plain"])]

/-- Claim C4 witness: a JSON-content-type map with no traceparent. -/
theorem C4_witness :
    ∃ md, InternalMetadataToGrpcMetadata ambW mC4 true = some md ∧
      mdGet md TraceparentHeader = [spanContextToW3CString ambW] ∧
      mdGet md GRPCTraceContextKey = [bytesStr (binaryFromSpanContext ambW)] ∧
      (ambW.traceState ≠ "" → mdGet md TracestateHeader = [ambW.traceState]) :=
  C4_http_no_traceparent_dual_emission ambW mC4 true (by decide) (by decide)
    (by decide)

/-- Claim C5 (counterexample): the reserved `grpc-trace-bin` key ends in
`-bin`, yet bridging an HTTP-originated map containing it does not append
its base64-decoded bytes — the value is diverted to trace handling and the
emitted `grpc-trace-bin` is the ambient span's binary token instead. -/
theorem C5_counterexample :
    goEndsWith GRPCTraceContextKey gRPCBinaryMetadataSfx = true ∧
    ((InternalMetadataToGrpcMetadata ambW
        [(GRPCTraceContextKey, [goBase64EncodeStr [1, 2, 3]])] false).map
      (fun md => mdGet md GRPCTraceContextKey))
        = some [bytesStr (binaryFromSpanContext ambW)] ∧
    bytesStr (binaryFromSpanContext ambW) ≠ bytesStr [1, 2, 3] := by
  refine ⟨by decide, by decide, by decide⟩

/-- Claim C5 (amended): for every key ending in `-bin` whose lowercase form is
not one of the diverted reserved keys, bridging base64-decodes each value
and appends the decoded bytes (so an encoded value round-trips to the
original bytes), and a value that is not valid base64 is silently dropped
while the operation still succeeds. -/
theorem C5_bin_roundtrip_amended :
    (∀ (amb : SpanContext) (conv : Bool) (k : String) (bytes : List Nat),
      goEndsWith k gRPCBinaryMetadataSfx = true →
      goToLower k ≠ TraceparentHeader → goToLower k ≠ TracestateHeader →
      goToLower k ≠ GRPCTraceContextKey → goToLower k ≠ DestinationIDHeader →
      (∀ b ∈ bytes, b < 256) →
      ∃ md, InternalMetadataToGrpcMetadata amb [(k, [goBase64EncodeStr bytes])]
              conv = some md ∧
        mdGet md (if conv ∧ isPermanentHTTPHeader k then
            DaprHeaderPfx ++ goToLower k else goToLower k) = [bytesStr bytes]) ∧
    (∀ (amb : SpanContext) (conv : Bool) (k v : String),
      goEndsWith k gRPCBinaryMetadataSfx = true →
      goToLower k ≠ TraceparentHeader → goToLower k ≠ TracestateHeader →
      goToLower k ≠ GRPCTraceContextKey → goToLower k ≠ DestinationIDHeader →
      goBase64DecodeStr v = none →
      ∃ md, InternalMetadataToGrpcMetadata amb [(k, [v])] conv = some md ∧
        mdGet md (if conv ∧ isPermanentHTTPHeader k then
            DaprHeaderPfx ++ goToLower k else goToLower k) = []) := by
  constructor
  · intro amb conv k bytes hbin h1 h2 h3 h4 hb
    have hct : k ≠ ContentTypeHeader := by
      intro hk; rw [hk] at hbin; exact absurd hbin (by decide)
    rw [imd_single_plain amb conv k [goBase64EncodeStr bytes] h1 h2 h3 h4 hct]
    refine ⟨_, rfl, ?_⟩
    rw [if_pos hbin]
    simp only [List.foldl_cons, List.foldl_nil, goBase64_roundtrip bytes hb]
    have hKN1 : (if conv ∧ isPermanentHTTPHeader k then
        DaprHeaderPfx ++ goToLower k else goToLower k) ≠ TraceparentHeader := by
      split_ifs with hc
      · exact daprPfx_ne_tp _
      · exact h1
    have hKN2 : (if conv ∧ isPermanentHTTPHeader k then
        DaprHeaderPfx ++ goToLower k else goToLower k) ≠ TracestateHeader := by
      split_ifs with hc
      · exact daprPfx_ne_ts _
      · exact h2
    have hKN3 : (if conv ∧ isPermanentHTTPHeader k then
        DaprHeaderPfx ++ goToLower k else goToLower k) ≠ GRPCTraceContextKey := by
      split_ifs with hc
      · exact daprPfx_ne_gtb _
      · exact h3
    rw [processHTTPToGRPC_ne amb _ "" "" _ hKN1 hKN2 hKN3,
        mdGet_appendKV_self mdEmpty _ [bytesStr bytes] (by simp)]
    simp [mdGet, mdEmpty]
  · intro amb conv k v hbin h1 h2 h3 h4 hd
    have hct : k ≠ ContentTypeHeader := by
      intro hk; rw [hk] at hbin; exact absurd hbin (by decide)
    rw [imd_single_plain amb conv k [v] h1 h2 h3 h4 hct]
    refine ⟨_, rfl, ?_⟩
    rw [if_pos hbin]
    simp only [List.foldl_cons, List.foldl_nil, hd]
    have hKN1 : (if conv ∧ isPermanentHTTPHeader k then
        DaprHeaderPfx ++ goToLower k else goToLower k) ≠ TraceparentHeader := by
      split_ifs with hc
      · exact daprPfx_ne_tp _
      · exact h1
    have hKN2 : (if conv ∧ isPermanentHTTPHeader k then
        DaprHeaderPfx ++ goToLower k else goToLower k) ≠ TracestateHeader := by
      split_ifs with hc
      · exact daprPfx_ne_ts _
      · exact h2
    have hKN3 : (if conv ∧ isPermanentHTTPHeader k then
        DaprHeaderPfx ++ goToLower k else goToLower k) ≠ GRPCTraceContextKey := by
      split_ifs with hc
      · exact daprPfx_ne_gtb _
      · exact h3
    rw [processHTTPToGRPC_ne amb _ "" "" _ hKN1 hKN2 hKN3]
    simp [mdGet, mdEmpty]

/-- Claim C5 witness: the key `my-key-bin` with the encoded bytes `[7, 8, 9]`
round-trips through the bridge. -/
theorem C5_witness :
    ∃ md, InternalMetadataToGrpcMetadata ambW
        [("my-key-bin", [goBase64EncodeStr [7, 8, 9]])] false = some md ∧
      mdGet md (if false ∧ isPermanentHTTPHeader "my-key-bin" then
          DaprHeaderPfx ++ goToLower "my-key-bin" else goToLower "my-key-bin")
        = [bytesStr [7, 8, 9]] :=
  C5_bin_roundtrip_amended.1 ambW false "my-key-bin" [7, 8, 9] (by decide)
    (by decide) (by decide) (by decide) (by decide) (by decide)

/-- Claim C8: with `httpHeaderConversion` set, the exact canonical key
`Accept` is emitted as `dapr-accept`, while the lowercase key `accept` is
emitted unprefixed (exact case-sensitive match against the permanent-header
list). -/
theorem C8_permanent_header_exact_case :
    ∀ (amb : SpanContext) (v : String),
      (∃ md, InternalMetadataToGrpcMetadata amb [("Accept", [v])] true
          = some md ∧ mdGet md "dapr-accept" = [v] ∧ mdGet md "accept" = []) ∧
      (∃ md, InternalMetadataToGrpcMetadata amb [("accept", [v])] true
          = some md ∧ mdGet md "accept" = [v] ∧ mdGet md "dapr-accept" = []) := by
  intro amb v
  constructor
  · rw [imd_single_plain amb true "Accept" [v] (by decide) (by decide)
        (by decide) (by decide) (by decide)]
    have hsimp : (if goEndsWith "Accept" gRPCBinaryMetadataSfx then
          ([v]).foldl (fun md v =>
            match goBase64DecodeStr v with
            | some decoded =>
                mdAppendKV md (if (true : Bool) ∧ isPermanentHTTPHeader "Accept"
                  then DaprHeaderPfx ++ goToLower "Accept"
                  else goToLower "Accept") [decoded]
            | none => md) mdEmpty
        else
          mdAppendKV mdEmpty (if (true : Bool) ∧ isPermanentHTTPHeader "Accept"
            then DaprHeaderPfx ++ goToLower "Accept"
            else goToLower "Accept") [v])
        = mdAppendKV mdEmpty "dapr-accept" [v] := by
      rw [if_neg (by decide)]
      rfl
    rw [hsimp]
    refine ⟨_, rfl, ?_, ?_⟩
    · rw [processHTTPToGRPC_ne amb _ "" "" "dapr-accept" (by decide) (by decide)
          (by decide),
        mdGet_appendKV_self mdEmpty "dapr-accept" [v] (by simp)]
      simp [mdGet, mdEmpty]
    · rw [processHTTPToGRPC_ne amb _ "" "" "accept" (by decide) (by decide)
          (by decide),
        mdGet_appendKV_ne mdEmpty "dapr-accept" "accept" [v] (by decide)]
      rfl
  · rw [imd_single_plain amb true "accept" [v] (by decide) (by decide)
        (by decide) (by decide) (by decide)]
    have hsimp : (if goEndsWith "accept" gRPCBinaryMetadataSfx then
          ([v]).foldl (fun md v =>
            match goBase64DecodeStr v with
            | some decoded =>
                mdAppendKV md (if (true : Bool) ∧ isPermanentHTTPHeader "accept"
                  then DaprHeaderPfx ++ goToLower "accept"
                  else goToLower "accept") [decoded]
            | none => md) mdEmpty
        else
          mdAppendKV mdEmpty (if (true : Bool) ∧ isPermanentHTTPHeader "accept"
            then DaprHeaderPfx ++ goToLower "accept"
            else goToLower "accept") [v])
        = mdAppendKV mdEmpty "accept" [v] := by
      rw [if_neg (by decide)]
      rfl
    rw [hsimp]
    refine ⟨_, rfl, ?_, ?_⟩
    · rw [processHTTPToGRPC_ne amb _ "" "" "accept" (by decide) (by decide)
          (by decide),
        mdGet_appendKV_self mdEmpty "accept" [v] (by simp)]
      simp [mdGet, mdEmpty]
    · rw [processHTTPToGRPC_ne amb _ "" "" "dapr-accept" (by decide) (by decide)
          (by decide),
        mdGet_appendKV_ne mdEmpty "accept" "dapr-accept" [v] (by decide)]
      rfl

/-- Claim C10: indexing `GetValues()[0]` without an emptiness check makes
`IsGRPCProtocol` and `InternalMetadataToGrpcMetadata` panic (modelled as
`none`) when `content-type` or a trace key maps to an empty value sequence;
both are total under the every-key-has-a-value precondition; the
`InternalMetadataToHTTPHeader` loop instead skips empty value lists. -/
theorem C10_empty_value_indexing :
    IsGRPCProtocol [(ContentTypeHeader, [])] = none ∧
    (∀ (amb : SpanContext) (conv : Bool),
      InternalMetadataToGrpcMetadata amb [(TraceparentHeader, [])] conv = none ∧
      InternalMetadataToGrpcMetadata amb [(TracestateHeader, [])] conv = none ∧
      InternalMetadataToGrpcMetadata amb [(GRPCTraceContextKey, [])] conv
        = none ∧
      InternalMetadataToGrpcMetadata amb [(ContentTypeHeader, [])] conv
        = none) ∧
    (∀ (amb : SpanContext) (m : DaprInternalMetadata) (conv : Bool),
      (∀ p ∈ m, p.2 ≠ []) →
      (IsGRPCProtocol m).isSome ∧
      (InternalMetadataToGrpcMetadata amb m conv).isSome) ∧
    (∀ amb : SpanContext,
      InternalMetadataToHTTPHeader amb [("foo", [])]
        = some (processHTTPToHTTPTraceHeaders amb "" "")) := by
  refine ⟨by decide, fun amb conv => ⟨rfl, rfl, rfl, rfl⟩,
    fun amb m conv h => ⟨IsGRPCProtocol_total m h, imd2grpc_total amb m conv h⟩,
    fun amb => rfl⟩

/-- Claim C10 witness: the totality conjunct applied to a one-entry map whose
value list is non-empty. -/
theorem C10_witness :
    (IsGRPCProtocol [("x-key", ["v"])]).isSome ∧
    (InternalMetadataToGrpcMetadata ambW [("x-key", ["v"])] true).isSome :=
  C10_empty_value_indexing.2.2.1 ambW [("x-key", ["v"])] true (by decide)

end DaprV1
